import Mathlib

/-!
Verification of the endpoint registration and dispatch engine of
`runtime/setup.go` (package `runtime`): the wildcard-method registration
(`handleRPC`), the request dispatcher (`Server.handler`), the reserved
`__encore.` internal namespace, the not-found error path with its
observability counter, and `Setup`'s router construction.

The router itself (`github.com/julienschmidt/httprouter`) is an external
dependency whose source is not part of this repository; it is modelled from
the specification's Router Table contract (`Register`, `Lookup`, parameter
segments, trailing catch-all, duplicate registration as a startup error).
Everything else is translated directly from `setup.go`.

Strings are Lean `String`s; all computation routes through `String.toList`
so that concrete instances evaluate by `decide`. The paths involved are
ASCII, so Go's byte-indexed operations (`strings.IndexByte`,
`ep[len("__encore."):]`) agree with the character-level translations used
here.
-/

namespace EncoreRuntime

/-- Character-level model of Go's `strings.HasPrefix pre` test. -/
def strStartsWith (s pre : String) : Bool :=
  pre.toList.isPrefixOf s.toList

/-- Drop the first `n` characters of a string (Go slice `s[n:]` on ASCII data). -/
def strDropChars (s : String) (n : Nat) : String :=
  ⟨s.toList.drop n⟩

/-- Go `strings.TrimPrefix(path, "/")`: strips one leading slash when present. -/
def trimSlash (path : String) : String :=
  if strStartsWith path "/" then strDropChars path 1 else path

/-- `wildcardMethod` from setup.go: the internal method name wildcard methods
are registered under. -/
def wildcardMethod : String := "__ENCORE_WILDCARD__"

/-- The reserved internal-namespace marker checked by the dispatcher. -/
def internalNS : String := "__encore."

/-! ## Configuration data model (`runtime.encore.dev/runtime/config`) -/

/-- `config.Endpoint`: name, path pattern, method set, handler.  The handler
is modelled as an opaque identifier (a natural number); the dispatcher never
inspects it, only invokes it. -/
structure Endpoint where
  Name : String
  Path : String
  Methods : List String
  Handler : Nat
  deriving DecidableEq, Repr

/-- A service of `config.ServerConfig`: name plus ordered endpoint list. -/
structure Service where
  Name : String
  Endpoints : List Endpoint
  deriving DecidableEq, Repr

/-- `config.ServerConfig`: the ordered list of services. -/
structure ServerConfig where
  Services : List Service
  deriving DecidableEq, Repr

/-! ## Router Table

Modelled from the spec: the `httprouter` dependency is not part of this
repository's source.  The spec's Router Table stores bindings
`(method, path pattern) -> handler`, where patterns may declare named
parameter segments and at most one trailing catch-all segment, lookup of a
concrete path returns the bound handler with extracted parameters, and a
duplicate `(method, exact pattern)` registration is a startup-time error. -/

/-- One registered binding of the Router Table. -/
structure RouteEntry where
  method : String
  pattern : String
  handler : Nat
  deriving DecidableEq, Repr

/-- Split a list of characters on `/` into segments. -/
def segsAux : List Char → List Char → List (List Char)
  | [], cur => [cur.reverse]
  | c :: cs, cur =>
    if c = '/' then cur.reverse :: segsAux cs [] else segsAux cs (c :: cur)

/-- Split a path (or pattern) into its `/`-separated segments. -/
def segs (s : String) : List String :=
  (segsAux s.toList []).map fun l => ⟨l⟩

/-- Rejoin segments with `/` (used for the catch-all parameter value). -/
def joinSegs : List String → String
  | [] => ""
  | [s] => s
  | s :: rest => s ++ "/" ++ joinSegs rest

/-- Modelled from the spec: pattern matching of the Router Table.  A pattern
segment starting with `:` binds the rest of its name to the request segment;
a trailing segment starting with `*` is a catch-all binding the remainder of
the path (with a leading `/`); any other segment must match literally. -/
def matchSegs : List String → List String → Option (List (String × String))
  | [], [] => some []
  | p :: ps, s :: ss =>
    if strStartsWith p ":" then
      (matchSegs ps ss).map fun prms => (strDropChars p 1, s) :: prms
    else if strStartsWith p "*" then
      if ps = [] then some [(strDropChars p 1, "/" ++ joinSegs (s :: ss))]
      else none
    else if p = s then matchSegs ps ss else none
  | _, _ => none

/-- Pattern match of a full pattern against a full request path. -/
def matchPath (pattern path : String) : Option (List (String × String)) :=
  matchSegs (segs pattern) (segs path)

/-- Does the entry list contain a binding with this exact (method, pattern)? -/
def hasKey (entries : List RouteEntry) (m pat : String) : Bool :=
  entries.any fun e => e.method = m ∧ e.pattern = pat

/-- Modelled from the spec: `Register` inserts a binding and fails (a
startup-time error) on a duplicate `(method, exact pattern)` pair. -/
def registerOne (entries : List RouteEntry) (m pat : String) (h : Nat) :
    Option (List RouteEntry) :=
  if hasKey entries m pat then none
  else some (entries ++ [⟨m, pat, h⟩])

/-- Register a list of `(method, pattern, handler)` bindings in order,
failing as soon as one registration fails. -/
def registerAll (entries : List RouteEntry) :
    List (String × String × Nat) → Option (List RouteEntry)
  | [] => some entries
  | (m, pat, h) :: rest =>
    match registerOne entries m pat h with
    | none => none
    | some entries2 => registerAll entries2 rest

/-- The router with its configuration flags (`httprouter.Router` fields set
by `Setup`). -/
structure Router where
  entries : List RouteEntry
  HandleOPTIONS : Bool
  RedirectFixedPath : Bool
  RedirectTrailingSlash : Bool
  deriving DecidableEq, Repr

/-- First registered entry of the given method whose pattern matches the
path, together with the extracted parameters. -/
def findMatch (entries : List RouteEntry) (method path : String) :
    Option (Nat × List (String × String)) :=
  match entries with
  | [] => none
  | e :: rest =>
    if e.method = method then
      match matchPath e.pattern path with
      | some prms => some (e.handler, prms)
      | none => findMatch rest method path
    else findMatch rest method path

/-- Toggle a trailing slash on a path. -/
def toggleSlash (path : String) : String :=
  match path.toList.getLast? with
  | some c => if c = '/' then ⟨path.toList.dropLast⟩ else path ++ "/"
  | none => path ++ "/"

/-- Modelled from the spec: the trailing-slash-redirect hint returned by
`Lookup` (true when the path with its trailing slash toggled would match).
The dispatcher discards it. -/
def tsrFlag (entries : List RouteEntry) (method path : String) : Bool :=
  (findMatch entries method (toggleSlash path)).isSome

/-- Modelled from the spec: `Lookup(method, path)` returns the bound handler
and extracted parameters when a pattern matches, plus the
trailing-slash-redirect hint as its second component. -/
def Router.Lookup (r : Router) (method path : String) :
    Option (Nat × List (String × String)) × Bool :=
  (findMatch r.entries method path, tsrFlag r.entries method path)

/-! ## Server and registration (`setup.go`) -/

/-- The `Server` of setup.go, reduced to the state the dispatcher reads
(the logger only emits an informational message per registration). -/
structure Server where
  router : Router
  deriving DecidableEq, Repr

/-- The method-name substitution of `handleRPC`: `"*"` is registered under
`wildcardMethod`, every other method name is registered as-is. -/
def methodOrWildcard (m : String) : String :=
  if m = "*" then wildcardMethod else m

/-- The `(method, pattern, handler)` registrations `handleRPC` performs for
one endpoint, in order. -/
def endpointRegs (e : Endpoint) : List (String × String × Nat) :=
  e.Methods.map fun m => (methodOrWildcard m, e.Path, e.Handler)

/-- All registrations `Setup` performs, in order: services in order, each
service's endpoints in order, each endpoint's methods in order. -/
def allRegs (cfg : ServerConfig) : List (String × String × Nat) :=
  cfg.Services.flatMap fun svc => svc.Endpoints.flatMap fun e => endpointRegs e

/-- `Setup`: builds the router with `HandleOPTIONS`, `RedirectFixedPath` and
`RedirectTrailingSlash` disabled and registers every endpoint of every
service via `handleRPC`.  Modelled from the spec: a duplicate registration
is a startup-time failure, so `Setup` returns `none` instead of a server. -/
def Setup (cfg : ServerConfig) : Option Server :=
  (registerAll [] (allRegs cfg)).map fun es =>
    ⟨⟨es, false, false, false⟩⟩

/-! ## Dispatcher (`Server.handler`) -/

/-- An HTTP response as far as the dispatcher shapes one: status code, the
Content-Type header it sets (if any), and the body bytes it writes. -/
structure Response where
  status : Nat
  contentType : Option String
  body : String
  deriving DecidableEq, Repr

/-- Go's `http.Error`: sets Content-Type to text/plain, writes the status
code and the message followed by a newline. -/
def httpError (msg : String) (code : Nat) : Response :=
  ⟨code, some "text/plain; charset=utf-8", msg ++ "\n"⟩

/-- The exact bytes of the not-found JSON body written by the dispatcher. -/
def notFoundBody : String :=
  "\x7b\n  \"code\": \"unknown_endpoint\",\n  \"message\": \"endpoint not found\",\n  \"details\": null\n\x7d\n"

/-- The not-found response of the routing-miss branch: status 404,
Content-Type application/json, the fixed JSON body. -/
def notFoundResponse : Response :=
  ⟨404, some "application/json", notFoundBody⟩

/-- First-dot split helper: `some (before, after)` when the list contains
`'.'`, splitting at its first occurrence. -/
def splitDotAux : List Char → Option (List Char × List Char)
  | [] => none
  | c :: cs =>
    if c = '.' then some ([], cs)
    else
      match splitDotAux cs with
      | some (l, r) => some (c :: l, r)
      | none => none

/-- The `(svc, api)` derivation of the routing-miss branch: split the
identifier at its first `'.'` (`strings.IndexByte`); if there is none, the
pair defaults to `("unknown", "Unknown")`. -/
def splitDot (ep : String) : String × String :=
  match splitDotAux ep.toList with
  | some (l, r) => (⟨l⟩, ⟨r⟩)
  | none => ("unknown", "Unknown")

/-- An inbound HTTP request as far as the dispatcher reads it. -/
structure Request where
  method : String
  path : String
  deriving DecidableEq, Repr

/-- The observable outcome of one dispatch: invoke the metrics scraper,
invoke a matched handler with the extracted path parameters, or write a
response, recording the `metrics.UnknownEndpoint` increments performed. -/
inductive DispatchResult where
  | scrape : DispatchResult
  | invoke (handler : Nat) (params : List (String × String)) : DispatchResult
  | respond (resp : Response) (counters : List (String × String)) : DispatchResult
  deriving DecidableEq, Repr

/-- `Server.handler` from setup.go: strip the leading `/`; requests in the
reserved `__encore.` namespace are handled before any router lookup
(ScrapeMetrics, or a plain-text 404 naming the unknown internal endpoint);
otherwise look up the exact method, fall back to the wildcard method, and on
a double miss increment the unknown-endpoint counter and write the fixed
404 JSON body. -/
def Server.handler (srv : Server) (req : Request) : DispatchResult :=
  let ep := trimSlash req.path
  if strStartsWith ep internalNS then
    let api := strDropChars ep internalNS.length
    if api = "ScrapeMetrics" then .scrape
    else .respond (httpError ("unknown internal endpoint: " ++ ep) 404) []
  else
    match (srv.router.Lookup req.method req.path).fst with
    | some (h, p) => .invoke h p
    | none =>
      match (srv.router.Lookup wildcardMethod req.path).fst with
      | some (h, p) => .invoke h p
      | none =>
        let sa := splitDot ep
        .respond notFoundResponse [sa]

/-- The body of the response a dispatch writes, when it writes one. -/
def respBody : DispatchResult → Option String
  | .respond r _ => some r.body
  | _ => none

/-! ## Unfolding lemmas for the dispatcher -/

theorem handler_internal_unknown (srv : Server) (req : Request)
    (h1 : strStartsWith (trimSlash req.path) internalNS = true)
    (h2 : strDropChars (trimSlash req.path) internalNS.length ≠ "ScrapeMetrics") :
    srv.handler req =
      .respond (httpError ("unknown internal endpoint: " ++ trimSlash req.path) 404) [] := by
  simp [Server.handler, h1, h2]

theorem handler_internal_scrape (srv : Server) (req : Request)
    (h1 : strStartsWith (trimSlash req.path) internalNS = true)
    (h2 : strDropChars (trimSlash req.path) internalNS.length = "ScrapeMetrics") :
    srv.handler req = .scrape := by
  simp [Server.handler, h1, h2]

theorem handler_router_indep (r1 r2 : Router) (req : Request)
    (h1 : strStartsWith (trimSlash req.path) internalNS = true) :
    Server.handler ⟨r1⟩ req = Server.handler ⟨r2⟩ req := by
  simp [Server.handler, h1]

theorem handler_exact_hit (srv : Server) (req : Request) (hd : Nat)
    (prms : List (String × String))
    (h1 : strStartsWith (trimSlash req.path) internalNS = false)
    (h2 : findMatch srv.router.entries req.method req.path = some (hd, prms)) :
    srv.handler req = .invoke hd prms := by
  simp [Server.handler, Router.Lookup, h1, h2]

theorem handler_wild_hit (srv : Server) (req : Request) (hd : Nat)
    (prms : List (String × String))
    (h1 : strStartsWith (trimSlash req.path) internalNS = false)
    (h2 : findMatch srv.router.entries req.method req.path = none)
    (h3 : findMatch srv.router.entries wildcardMethod req.path = some (hd, prms)) :
    srv.handler req = .invoke hd prms := by
  simp [Server.handler, Router.Lookup, h1, h2, h3]

theorem handler_miss (srv : Server) (req : Request)
    (h1 : strStartsWith (trimSlash req.path) internalNS = false)
    (h2 : findMatch srv.router.entries req.method req.path = none)
    (h3 : findMatch srv.router.entries wildcardMethod req.path = none) :
    srv.handler req = .respond notFoundResponse [splitDot (trimSlash req.path)] := by
  simp [Server.handler, Router.Lookup, h1, h2, h3]

/-! ## Lookup lemmas -/

theorem findMatch_of_mem (entries : List RouteEntry) (e : RouteEntry)
    (m path : String) (prms : List (String × String))
    (hmem : e ∈ entries) (hm : e.method = m)
    (hmatch : matchPath e.pattern path = some prms)
    (huniq : ∀ e2 ∈ entries, e2.method = m → (matchPath e2.pattern path).isSome → e2 = e) :
    findMatch entries m path = some (e.handler, prms) := by
  induction entries with
  | nil => cases hmem
  | cons e0 rest ih =>
    rcases List.mem_cons.mp hmem with he | he
    · subst he
      simp [findMatch, hm, hmatch]
    · by_cases hm0 : e0.method = m
      · cases hs : matchPath e0.pattern path with
        | some prms0 =>
          have he0 : e0 = e := by
            apply huniq e0 (List.mem_cons_self _ _) hm0
            simp [hs]
          subst he0
          have : prms0 = prms := by
            rw [hmatch] at hs
            exact (Option.some.injEq _ _ ▸ hs).symm
          subst this
          simp [findMatch, hm0, hs]
        | none =>
          have hrec := ih he fun e2 h2 => huniq e2 (List.mem_cons_of_mem e0 h2)
          simp [findMatch, hm0, hs, hrec]
      · have hrec := ih he fun e2 h2 => huniq e2 (List.mem_cons_of_mem e0 h2)
        simp [findMatch, hm0, hrec]

/-! ## Registration lemmas -/

theorem registerOne_eq_some (entries acc2 : List RouteEntry) (m pat : String) (hd : Nat)
    (h : registerOne entries m pat hd = some acc2) :
    acc2 = entries ++ [⟨m, pat, hd⟩] ∧ hasKey entries m pat = false := by
  by_cases hk : hasKey entries m pat
  · simp [registerOne, hk] at h
  · simp [registerOne, hk] at h
    exact ⟨h.symm, by simp [hk]⟩

theorem registerAll_mono (regs : List (String × String × Nat)) :
    ∀ acc es, registerAll acc regs = some es → ∀ en ∈ acc, en ∈ es := by
  induction regs with
  | nil =>
    intro acc es h en hen
    simp [registerAll] at h
    exact h ▸ hen
  | cons r rest ih =>
    intro acc es h en hen
    rcases r with ⟨m, pat, hd⟩
    cases hro : registerOne acc m pat hd with
    | none => simp [registerAll, hro] at h
    | some acc2 =>
      simp [registerAll, hro] at h
      have hacc2 := (registerOne_eq_some acc acc2 m pat hd hro).1
      exact ih acc2 es h en (hacc2 ▸ List.mem_append_left _ hen)

theorem registerAll_mem_reg (regs : List (String × String × Nat)) :
    ∀ acc es, registerAll acc regs = some es →
    ∀ m pat hd, (m, pat, hd) ∈ regs → (⟨m, pat, hd⟩ : RouteEntry) ∈ es := by
  induction regs with
  | nil =>
    intro acc es h m pat hd hmem
    cases hmem
  | cons r rest ih =>
    intro acc es h m pat hd hmem
    rcases r with ⟨m0, pat0, hd0⟩
    cases hro : registerOne acc m0 pat0 hd0 with
    | none => simp [registerAll, hro] at h
    | some acc2 =>
      simp [registerAll, hro] at h
      have hacc2 := (registerOne_eq_some acc acc2 m0 pat0 hd0 hro).1
      rcases List.mem_cons.mp hmem with heq | hmem2
      · have : (⟨m, pat, hd⟩ : RouteEntry) ∈ acc2 := by
          rw [hacc2]
          apply List.mem_append_right
          simp at heq
          simp [heq.1, heq.2.1, heq.2.2]
        exact registerAll_mono rest acc2 es h _ this
      · exact ih acc2 es h m pat hd hmem2

theorem mem_allRegs (cfg : ServerConfig) (svc : Service) (e : Endpoint) (m : String)
    (hsvc : svc ∈ cfg.Services) (he : e ∈ svc.Endpoints) (hm : m ∈ e.Methods) :
    (methodOrWildcard m, e.Path, e.Handler) ∈ allRegs cfg := by
  simp [allRegs, endpointRegs, List.mem_flatMap]
  exact ⟨svc, hsvc, e, he, m, hm, rfl, rfl, rfl⟩

theorem Setup_eq_some (cfg : ServerConfig) (srv : Server) (h : Setup cfg = some srv) :
    registerAll [] (allRegs cfg) = some srv.router.entries ∧
    srv.router.HandleOPTIONS = false ∧ srv.router.RedirectFixedPath = false ∧
    srv.router.RedirectTrailingSlash = false := by
  rcases Option.map_eq_some'.mp h with ⟨es, hes, hsrv⟩
  subst hsrv
  exact ⟨hes, rfl, rfl, rfl⟩

theorem setup_entry_mem (cfg : ServerConfig) (srv : Server) (svc : Service)
    (e : Endpoint) (m : String) (hset : Setup cfg = some srv)
    (hsvc : svc ∈ cfg.Services) (he : e ∈ svc.Endpoints) (hm : m ∈ e.Methods) :
    (⟨methodOrWildcard m, e.Path, e.Handler⟩ : RouteEntry) ∈ srv.router.entries :=
  registerAll_mem_reg (allRegs cfg) [] srv.router.entries
    (Setup_eq_some cfg srv hset).1 _ _ _ (mem_allRegs cfg svc e m hsvc he hm)

/-! ## First-dot split lemmas -/

theorem splitDotAux_none (l : List Char) (h : '.' ∉ l) : splitDotAux l = none := by
  induction l with
  | nil => rfl
  | cons c cs ih =>
    have hc : c ≠ '.' := fun hc => h (hc ▸ List.mem_cons_self _ _)
    have hcs : '.' ∉ cs := fun hm => h (List.mem_cons_of_mem c hm)
    simp [splitDotAux, hc, ih hcs]

theorem splitDotAux_append (l r : List Char) (h : '.' ∉ l) :
    splitDotAux (l ++ '.' :: r) = some (l, r) := by
  induction l with
  | nil => simp [splitDotAux]
  | cons c cs ih =>
    have hc : c ≠ '.' := fun hc => h (hc ▸ List.mem_cons_self _ _)
    have hcs : '.' ∉ cs := fun hm => h (List.mem_cons_of_mem c hm)
    simp [splitDotAux, hc, ih hcs]

theorem splitDot_split (l r : List Char) (h : '.' ∉ l) :
    splitDot ⟨l ++ '.' :: r⟩ = (⟨l⟩, ⟨r⟩) := by
  have hl : (⟨l ++ '.' :: r⟩ : String).toList = l ++ '.' :: r := rfl
  simp [splitDot, hl, splitDotAux_append l r h]

theorem splitDot_no_dot (u : String) (h : '.' ∉ u.toList) :
    splitDot u = ("unknown", "Unknown") := by
  have hnone : splitDotAux u.data = none := splitDotAux_none u.toList h
  simp [splitDot, hnone]

/-! ## Duplicate-registration lemmas -/

theorem hasKey_append (a b : List RouteEntry) (m p : String) :
    hasKey (a ++ b) m p = (hasKey a m p || hasKey b m p) := by
  simp [hasKey, List.any_append]

theorem hasKey_single (m pat : String) (hd : Nat) (m2 p2 : String)
    (h1 : m2 = m) (h2 : p2 = pat) :
    hasKey [(⟨m, pat, hd⟩ : RouteEntry)] m2 p2 = true := by
  simp [hasKey, h1, h2]

theorem registerAll_some_nodup (regs : List (String × String × Nat)) :
    ∀ acc es, registerAll acc regs = some es →
      (regs.map fun r => (r.1, r.2.1)).Nodup ∧
      ∀ r ∈ regs, hasKey acc r.1 r.2.1 = false := by
  induction regs with
  | nil =>
    intro acc es _
    simp
  | cons r0 rest ih =>
    intro acc es h
    rcases r0 with ⟨m, pat, hd⟩
    cases hro : registerOne acc m pat hd with
    | none => simp [registerAll, hro] at h
    | some acc2 =>
      simp [registerAll, hro] at h
      rcases registerOne_eq_some acc acc2 m pat hd hro with ⟨hacc2, hk⟩
      rcases ih acc2 es h with ⟨hnd, hall⟩
      have hsplit : ∀ r ∈ rest, hasKey acc r.1 r.2.1 = false ∧
          hasKey [(⟨m, pat, hd⟩ : RouteEntry)] r.1 r.2.1 = false := by
        intro r hr
        have hfalse := hall r hr
        rw [hacc2, hasKey_append] at hfalse
        exact Bool.or_eq_false_iff.mp hfalse
      refine ⟨?_, ?_⟩
      · rw [List.map_cons, List.nodup_cons]
        refine ⟨?_, hnd⟩
        intro hmem
        rcases List.mem_map.mp hmem with ⟨r, hr, hkeq⟩
        have h1 : r.1 = m := congrArg Prod.fst hkeq
        have h2 : r.2.1 = pat := congrArg Prod.snd hkeq
        have hfalse := (hsplit r hr).2
        rw [hasKey_single m pat hd r.1 r.2.1 h1 h2] at hfalse
        cases hfalse
      · intro r hr
        rcases List.mem_cons.mp hr with heq | hr2
        · rw [heq]
          exact hk
        · exact (hsplit r hr2).1

/-! ## Claim theorems -/

/-- C1: for every (method, path) pair registered from the configuration with
a concrete, non-wildcard method, an inbound request with exactly that method
and a path matching that pattern is dispatched to the corresponding handler,
invoked with the path parameters extracted from the request path (stated for
a request outside the reserved namespace whose path no other same-method
registration matches). -/
theorem C1_exact_dispatch (cfg : ServerConfig) (srv : Server) (svc : Service)
    (e : Endpoint) (m : String) (req : Request) (prms : List (String × String))
    (hset : Setup cfg = some srv)
    (hsvc : svc ∈ cfg.Services) (he : e ∈ svc.Endpoints) (hm : m ∈ e.Methods)
    (hconc : m ≠ "*")
    (hmeth : req.method = m)
    (hmatch : matchPath e.Path req.path = some prms)
    (hext : strStartsWith (trimSlash req.path) internalNS = false)
    (huniq : ∀ e2 ∈ srv.router.entries, e2.method = m →
      (matchPath e2.pattern req.path).isSome → e2 = ⟨m, e.Path, e.Handler⟩) :
    srv.handler req = .invoke e.Handler prms := by
  have hmem := setup_entry_mem cfg srv svc e m hset hsvc he hm
  have hmow : methodOrWildcard m = m := by simp [methodOrWildcard, hconc]
  rw [hmow] at hmem
  have hfind := findMatch_of_mem srv.router.entries ⟨m, e.Path, e.Handler⟩ m req.path
    prms hmem rfl hmatch huniq
  apply handler_exact_hit srv req e.Handler prms hext
  rw [hmeth]
  exact hfind

/-- C2: for a path registered both under a concrete method and under the
wildcard marker, a request using the concrete method resolves to the
exact-method handler, never the wildcard handler (the wildcard lookup is
only reached when the exact lookup returns no handler). -/
theorem C2_exact_over_wildcard (cfg : ServerConfig) (srv : Server)
    (svcE : Service) (eE : Endpoint) (svcW : Service) (eW : Endpoint)
    (m : String) (req : Request) (prms : List (String × String))
    (hset : Setup cfg = some srv)
    (hsvcE : svcE ∈ cfg.Services) (heE : eE ∈ svcE.Endpoints) (hmE : m ∈ eE.Methods)
    (hconc : m ≠ "*")
    (hsvcW : svcW ∈ cfg.Services) (heW : eW ∈ svcW.Endpoints) (hW : "*" ∈ eW.Methods)
    (hsame : eW.Path = eE.Path)
    (hmeth : req.method = m)
    (hmatch : matchPath eE.Path req.path = some prms)
    (hext : strStartsWith (trimSlash req.path) internalNS = false)
    (huniq : ∀ e2 ∈ srv.router.entries, e2.method = m →
      (matchPath e2.pattern req.path).isSome → e2 = ⟨m, eE.Path, eE.Handler⟩) :
    srv.handler req = .invoke eE.Handler prms :=
  C1_exact_dispatch cfg srv svcE eE m req prms hset hsvcE heE hmE hconc hmeth
    hmatch hext huniq

/-- C3: an endpoint whose method set contains the wildcard marker matches a
request with any concrete HTTP method on its path, provided the exact-method
lookup finds no registration for the request method and path (stated for a
request outside the reserved namespace whose path no other wildcard
registration matches). -/
theorem C3_wildcard_dispatch (cfg : ServerConfig) (srv : Server) (svc : Service)
    (e : Endpoint) (req : Request) (prms : List (String × String))
    (hset : Setup cfg = some srv)
    (hsvc : svc ∈ cfg.Services) (he : e ∈ svc.Endpoints) (hw : "*" ∈ e.Methods)
    (hext : strStartsWith (trimSlash req.path) internalNS = false)
    (hnoexact : findMatch srv.router.entries req.method req.path = none)
    (hmatch : matchPath e.Path req.path = some prms)
    (huniq : ∀ e2 ∈ srv.router.entries, e2.method = wildcardMethod →
      (matchPath e2.pattern req.path).isSome →
      e2 = ⟨wildcardMethod, e.Path, e.Handler⟩) :
    srv.handler req = .invoke e.Handler prms := by
  have hmem := setup_entry_mem cfg srv svc e "*" hset hsvc he hw
  have hmow : methodOrWildcard "*" = wildcardMethod := by simp [methodOrWildcard]
  rw [hmow] at hmem
  have hfind := findMatch_of_mem srv.router.entries ⟨wildcardMethod, e.Path, e.Handler⟩
    wildcardMethod req.path prms hmem rfl hmatch huniq
  exact handler_wild_hit srv req e.Handler prms hext hnoexact hfind

/-- C4: a request whose stripped path begins with the reserved marker is
handled in the internal namespace before the Router Table is ever consulted:
the outcome is independent of the router, /__encore.ScrapeMetrics invokes
the metrics scraper even when a user endpoint is registered at the identical
path, and every other internal name gets the plain-text 404. -/
theorem C4_internal_bypass (r1 r2 : Router) (req : Request)
    (h1 : strStartsWith (trimSlash req.path) internalNS = true) :
    Server.handler ⟨r1⟩ req = Server.handler ⟨r2⟩ req ∧
    (req.path = "/__encore.ScrapeMetrics" → Server.handler ⟨r1⟩ req = .scrape) ∧
    (strDropChars (trimSlash req.path) internalNS.length ≠ "ScrapeMetrics" →
      Server.handler ⟨r1⟩ req =
        .respond (httpError ("unknown internal endpoint: " ++ trimSlash req.path) 404) []) := by
  refine ⟨handler_router_indep r1 r2 req h1, ?_, ?_⟩
  · intro hp
    apply handler_internal_scrape ⟨r1⟩ req h1
    rw [hp]
    decide
  · intro hne
    exact handler_internal_unknown ⟨r1⟩ req h1 hne

/-- C5: a request that neither begins with the reserved marker nor matches
any exact-method or wildcard registration is answered with status 404,
Content-Type application/json, and the exact fixed unknown-endpoint JSON
body. -/
theorem C5_not_found_response (srv : Server) (req : Request)
    (hext : strStartsWith (trimSlash req.path) internalNS = false)
    (hnoexact : findMatch srv.router.entries req.method req.path = none)
    (hnowild : findMatch srv.router.entries wildcardMethod req.path = none) :
    srv.handler req = .respond notFoundResponse [splitDot (trimSlash req.path)] ∧
    notFoundResponse.status = 404 ∧
    notFoundResponse.contentType = some "application/json" ∧
    notFoundResponse.body =
      "\x7b\n  \"code\": \"unknown_endpoint\",\n  \"message\": \"endpoint not found\",\n  \"details\": null\n\x7d\n" :=
  ⟨handler_miss srv req hext hnoexact hnowild, rfl, rfl, rfl⟩

/-- C6: a routing miss performs exactly one unknown-endpoint counter
increment, keyed by splitting the stripped path at its first dot (left part
the service, right part the api); a dotless path yields
("unknown", "Unknown"). -/
theorem C6_counter_increment (srv : Server) (req : Request)
    (hext : strStartsWith (trimSlash req.path) internalNS = false)
    (hnoexact : findMatch srv.router.entries req.method req.path = none)
    (hnowild : findMatch srv.router.entries wildcardMethod req.path = none) :
    srv.handler req = .respond notFoundResponse [splitDot (trimSlash req.path)] ∧
    (∀ l r : List Char, '.' ∉ l → splitDot ⟨l ++ '.' :: r⟩ = (⟨l⟩, ⟨r⟩)) ∧
    (∀ u : String, '.' ∉ u.toList → splitDot u = ("unknown", "Unknown")) :=
  ⟨handler_miss srv req hext hnoexact hnowild, splitDot_split, splitDot_no_dot⟩

/-- C7 as stated is false on the code: the unknown-internal-endpoint body
repeats the full stripped identifier including the reserved prefix (with a
trailing newline), not just the name after the prefix; a request to
/__encore.NotARealAPI yields the body shown here, which differs from the
claimed one. -/
theorem C7_counterexample :
    respBody (Server.handler ⟨⟨[], false, false, false⟩⟩
        ⟨"GET", "/__encore.NotARealAPI"⟩) =
      some "unknown internal endpoint: __encore.NotARealAPI\n" ∧
    (some "unknown internal endpoint: __encore.NotARealAPI\n" ≠
      some "unknown internal endpoint: NotARealAPI") :=
  ⟨by decide, by decide⟩

/-- C7 (amended): a reserved-namespace request whose internal name is not
ScrapeMetrics is answered with status 404 and a plain-text body equal to
"unknown internal endpoint: " followed by the full stripped identifier
(including the reserved prefix) and a trailing newline. -/
theorem C7_unknown_internal (srv : Server) (req : Request)
    (h1 : strStartsWith (trimSlash req.path) internalNS = true)
    (h2 : strDropChars (trimSlash req.path) internalNS.length ≠ "ScrapeMetrics") :
    srv.handler req =
      .respond (httpError ("unknown internal endpoint: " ++ trimSlash req.path) 404) [] ∧
    ∀ msg : String, (httpError msg 404).status = 404 ∧
      (httpError msg 404).contentType = some "text/plain; charset=utf-8" ∧
      (httpError msg 404).body = msg ++ "\n" :=
  ⟨handler_internal_unknown srv req h1 h2, fun _ => ⟨rfl, rfl, rfl⟩⟩

/-- C8: a configuration in which two registrations collide on the same
(method, path pattern) pair makes router construction fail: Setup does not
produce a server. -/
theorem C8_duplicate_fails (cfg : ServerConfig) (i j : Nat)
    (r1 r2 : String × String × Nat)
    (hij : i ≠ j)
    (h1 : (allRegs cfg)[i]? = some r1) (h2 : (allRegs cfg)[j]? = some r2)
    (hm : r1.1 = r2.1) (hp : r1.2.1 = r2.2.1) :
    Setup cfg = none := by
  cases hreg : registerAll [] (allRegs cfg) with
  | none => simp [Setup, hreg]
  | some es =>
    exfalso
    have hnd := (registerAll_some_nodup (allRegs cfg) [] es hreg).1
    have hk1 : ((allRegs cfg).map fun r => (r.1, r.2.1))[i]? = some (r1.1, r1.2.1) := by
      rw [List.getElem?_map, h1]
      rfl
    have hk2 : ((allRegs cfg).map fun r => (r.1, r.2.1))[j]? = some (r2.1, r2.2.1) := by
      rw [List.getElem?_map, h2]
      rfl
    have hlt : i < ((allRegs cfg).map fun r => (r.1, r.2.1)).length :=
      (List.getElem?_eq_some_iff.mp hk1).1
    apply hij
    apply List.getElem?_inj hlt hnd
    rw [hk1, hk2, hm, hp]

/-- C9: the wildcard marker is the literal pseudo-method
"__ENCORE_WILDCARD__": an endpoint listing that literal is registered
exactly like one listing "*", and a request whose HTTP method string equals
that literal already matches wildcard-registered routes at the exact-method
lookup step. -/
theorem C9_wildcard_literal :
    wildcardMethod = "__ENCORE_WILDCARD__" ∧
    (∀ (n pat : String) (hd : Nat),
      endpointRegs ⟨n, pat, ["__ENCORE_WILDCARD__"], hd⟩ =
        endpointRegs ⟨n, pat, ["*"], hd⟩) ∧
    (∀ (srv : Server) (req : Request) (hd : Nat) (prms : List (String × String)),
      strStartsWith (trimSlash req.path) internalNS = false →
      req.method = wildcardMethod →
      findMatch srv.router.entries wildcardMethod req.path = some (hd, prms) →
      srv.handler req = .invoke hd prms) := by
  refine ⟨rfl, ?_, ?_⟩
  · intro n pat hd
    have h1 : methodOrWildcard "__ENCORE_WILDCARD__" = wildcardMethod := by decide
    have h2 : methodOrWildcard "*" = wildcardMethod := by decide
    simp [endpointRegs, h1, h2]
  · intro srv req hd prms hext hmeth hfind
    apply handler_exact_hit srv req hd prms hext
    rw [hmeth]
    exact hfind

/-- C10: Setup builds the router with HandleOPTIONS, RedirectFixedPath and
RedirectTrailingSlash disabled, and the dispatcher ignores the
trailing-slash-redirect hint of Lookup: any request outside the reserved
namespace on which both lookups miss is answered by the 404 routing-miss
response, never a redirect. -/
theorem C10_no_redirect :
    (∀ (cfg : ServerConfig) (srv : Server), Setup cfg = some srv →
      srv.router.HandleOPTIONS = false ∧ srv.router.RedirectFixedPath = false ∧
      srv.router.RedirectTrailingSlash = false) ∧
    (∀ (srv : Server) (req : Request),
      strStartsWith (trimSlash req.path) internalNS = false →
      (srv.router.Lookup req.method req.path).fst = none →
      (srv.router.Lookup wildcardMethod req.path).fst = none →
      srv.handler req = .respond notFoundResponse [splitDot (trimSlash req.path)] ∧
      notFoundResponse.status = 404) := by
  constructor
  · intro cfg srv h
    exact (Setup_eq_some cfg srv h).2
  · intro srv req hext h1 h2
    exact ⟨handler_miss srv req hext h1 h2, rfl⟩

/-! ## Witnesses -/

/-- Witness for C1: a GET endpoint at /users/:id with handler 7 receives a
GET request to /users/42 with parameter id=42. -/
theorem C1_witness :
    Server.handler ⟨⟨[⟨"GET", "/users/:id", 7⟩], false, false, false⟩⟩
      ⟨"GET", "/users/42"⟩ = .invoke 7 [("id", "42")] :=
  C1_exact_dispatch ⟨[⟨"users", [⟨"Get", "/users/:id", ["GET"], 7⟩]⟩]⟩
    ⟨⟨[⟨"GET", "/users/:id", 7⟩], false, false, false⟩⟩
    ⟨"users", [⟨"Get", "/users/:id", ["GET"], 7⟩]⟩
    ⟨"Get", "/users/:id", ["GET"], 7⟩ "GET" ⟨"GET", "/users/42"⟩ [("id", "42")]
    (by decide) (by decide) (by decide) (by decide) (by decide) rfl (by decide)
    (by decide) (by decide)

/-- Witness for C2: /a registered for GET (handler 1) and for the wildcard
(handler 2); a GET request resolves to handler 1. -/
theorem C2_witness :
    Server.handler
      ⟨⟨[⟨"GET", "/a", 1⟩, ⟨"__ENCORE_WILDCARD__", "/a", 2⟩], false, false, false⟩⟩
      ⟨"GET", "/a"⟩ = .invoke 1 [] :=
  C2_exact_over_wildcard
    ⟨[⟨"s", [⟨"A", "/a", ["GET"], 1⟩, ⟨"B", "/a", ["*"], 2⟩]⟩]⟩
    ⟨⟨[⟨"GET", "/a", 1⟩, ⟨"__ENCORE_WILDCARD__", "/a", 2⟩], false, false, false⟩⟩
    ⟨"s", [⟨"A", "/a", ["GET"], 1⟩, ⟨"B", "/a", ["*"], 2⟩]⟩ ⟨"A", "/a", ["GET"], 1⟩
    ⟨"s", [⟨"A", "/a", ["GET"], 1⟩, ⟨"B", "/a", ["*"], 2⟩]⟩ ⟨"B", "/a", ["*"], 2⟩
    "GET" ⟨"GET", "/a"⟩ []
    (by decide) (by decide) (by decide) (by decide) (by decide) (by decide)
    (by decide) (by decide) (by decide) rfl (by decide) (by decide) (by decide)

/-- Witness for C3: a wildcard endpoint at /w with handler 3 receives a
DELETE request to /w. -/
theorem C3_witness :
    Server.handler ⟨⟨[⟨"__ENCORE_WILDCARD__", "/w", 3⟩], false, false, false⟩⟩
      ⟨"DELETE", "/w"⟩ = .invoke 3 [] :=
  C3_wildcard_dispatch ⟨[⟨"w", [⟨"Any", "/w", ["*"], 3⟩]⟩]⟩
    ⟨⟨[⟨"__ENCORE_WILDCARD__", "/w", 3⟩], false, false, false⟩⟩
    ⟨"w", [⟨"Any", "/w", ["*"], 3⟩]⟩ ⟨"Any", "/w", ["*"], 3⟩ ⟨"DELETE", "/w"⟩ []
    (by decide) (by decide) (by decide) (by decide) (by decide) (by decide)
    (by decide) (by decide)

/-- Witness for C4: even with a user endpoint registered at the pattern
/__encore.ScrapeMetrics, the request invokes the metrics scraper, and the
outcome equals the one on an empty router. -/
theorem C4_witness :
    Server.handler ⟨⟨[⟨"GET", "/__encore.ScrapeMetrics", 9⟩], false, false, false⟩⟩
      ⟨"GET", "/__encore.ScrapeMetrics"⟩ = .scrape ∧
    Server.handler ⟨⟨[⟨"GET", "/__encore.ScrapeMetrics", 9⟩], false, false, false⟩⟩
      ⟨"GET", "/__encore.ScrapeMetrics"⟩ =
      Server.handler ⟨⟨[], false, false, false⟩⟩ ⟨"GET", "/__encore.ScrapeMetrics"⟩ :=
  ⟨(C4_internal_bypass ⟨[⟨"GET", "/__encore.ScrapeMetrics", 9⟩], false, false, false⟩
      ⟨[], false, false, false⟩ ⟨"GET", "/__encore.ScrapeMetrics"⟩ (by decide)).2.1 rfl,
   (C4_internal_bypass ⟨[⟨"GET", "/__encore.ScrapeMetrics", 9⟩], false, false, false⟩
      ⟨[], false, false, false⟩ ⟨"GET", "/__encore.ScrapeMetrics"⟩ (by decide)).1⟩

/-- Witness for C5: a GET request to /nope on an empty router gets the fixed
404 JSON response. -/
theorem C5_witness :
    Server.handler ⟨⟨[], false, false, false⟩⟩ ⟨"GET", "/nope"⟩ =
      .respond notFoundResponse [("unknown", "Unknown")] ∧
    notFoundResponse.status = 404 :=
  ⟨((C5_not_found_response ⟨⟨[], false, false, false⟩⟩ ⟨"GET", "/nope"⟩
      (by decide) (by decide) (by decide)).1).trans (by decide),
   (C5_not_found_response ⟨⟨[], false, false, false⟩⟩ ⟨"GET", "/nope"⟩
      (by decide) (by decide) (by decide)).2.1⟩

/-- Witness for C6: /orders.Create increments with ("orders", "Create") and
/bogus with ("unknown", "Unknown"), one increment each. -/
theorem C6_witness :
    Server.handler ⟨⟨[], false, false, false⟩⟩ ⟨"GET", "/orders.Create"⟩ =
      .respond notFoundResponse [("orders", "Create")] ∧
    Server.handler ⟨⟨[], false, false, false⟩⟩ ⟨"GET", "/bogus"⟩ =
      .respond notFoundResponse [("unknown", "Unknown")] :=
  ⟨((C6_counter_increment ⟨⟨[], false, false, false⟩⟩ ⟨"GET", "/orders.Create"⟩
      (by decide) (by decide) (by decide)).1).trans (by decide),
   ((C6_counter_increment ⟨⟨[], false, false, false⟩⟩ ⟨"GET", "/bogus"⟩
      (by decide) (by decide) (by decide)).1).trans (by decide)⟩

/-- Witness for the amended C7: /__encore.NotARealAPI gets a plain-text 404
whose body names the full stripped identifier. -/
theorem C7_witness :
    Server.handler ⟨⟨[], false, false, false⟩⟩ ⟨"GET", "/__encore.NotARealAPI"⟩ =
      .respond ⟨404, some "text/plain; charset=utf-8",
        "unknown internal endpoint: __encore.NotARealAPI\n"⟩ [] :=
  ((C7_unknown_internal ⟨⟨[], false, false, false⟩⟩ ⟨"GET", "/__encore.NotARealAPI"⟩
      (by decide) (by decide)).1).trans (by decide)

/-- Witness for C8: two endpoints both registering (GET, /x) make Setup
fail. -/
theorem C8_witness :
    Setup ⟨[⟨"svc", [⟨"A", "/x", ["GET"], 1⟩, ⟨"B", "/x", ["GET"], 2⟩]⟩]⟩ = none :=
  C8_duplicate_fails ⟨[⟨"svc", [⟨"A", "/x", ["GET"], 1⟩, ⟨"B", "/x", ["GET"], 2⟩]⟩]⟩
    0 1 ("GET", "/x", 1) ("GET", "/x", 2) (by decide) (by decide) (by decide) rfl rfl

/-- Witness for C9: a request whose method string is the wildcard literal
hits a wildcard-registered route at the exact-method lookup, and the two
registration forms coincide. -/
theorem C9_witness :
    Server.handler ⟨⟨[⟨"__ENCORE_WILDCARD__", "/w", 3⟩], false, false, false⟩⟩
      ⟨"__ENCORE_WILDCARD__", "/w"⟩ = .invoke 3 [] ∧
    endpointRegs ⟨"Any", "/w", ["__ENCORE_WILDCARD__"], 3⟩ =
      endpointRegs ⟨"Any", "/w", ["*"], 3⟩ :=
  ⟨C9_wildcard_literal.2.2
      ⟨⟨[⟨"__ENCORE_WILDCARD__", "/w", 3⟩], false, false, false⟩⟩
      ⟨"__ENCORE_WILDCARD__", "/w"⟩ 3 [] (by decide) (by decide) (by decide),
   C9_wildcard_literal.2.1 "Any" "/w" 3⟩

/-- Witness for C10: with /foo registered under GET, a GET request to /foo/
has the trailing-slash hint set yet is answered by the 404 routing miss; the
redirect and OPTIONS flags of a Setup router are disabled. -/
theorem C10_witness :
    (Router.Lookup ⟨[⟨"GET", "/foo", 5⟩], false, false, false⟩ "GET" "/foo/").snd = true ∧
    Server.handler ⟨⟨[⟨"GET", "/foo", 5⟩], false, false, false⟩⟩ ⟨"GET", "/foo/"⟩ =
      .respond notFoundResponse [("unknown", "Unknown")] ∧
    (⟨⟨[⟨"GET", "/foo", 5⟩], false, false, false⟩⟩ : Server).router.RedirectTrailingSlash = false :=
  ⟨by decide,
   ((C10_no_redirect.2 ⟨⟨[⟨"GET", "/foo", 5⟩], false, false, false⟩⟩ ⟨"GET", "/foo/"⟩
      (by decide) (by decide) (by decide)).1).trans (by decide),
   (C10_no_redirect.1 ⟨[⟨"s", [⟨"F", "/foo", ["GET"], 5⟩]⟩]⟩
      ⟨⟨[⟨"GET", "/foo", 5⟩], false, false, false⟩⟩ (by decide)).2.2⟩

end EncoreRuntime
